import Mathlib

/-!
Verification of the Stock Synchronization Core specification against the
Henry's SmartStock repository.

The embedding below translates the inventory-related TypeScript of the
repository into Lean:

* `src/frontend/src/types/inventory.ts` (shipped as `src/unnamed/part_003`):
  the data model (`StockLevel`, `InventoryTransaction`, `InventoryAdjustment`,
  `InventoryState`, the WebSocket message payloads).
* `src/frontend/src/store/slices/inventorySlice.ts`: the Redux reducers
  `updateStockLevel`, `addTransaction`, `handleWebSocketMessage`, and the
  `createInventoryAdjustment` pending/fulfilled/rejected cases.
* `src/components/inventory/InventoryAdjustmentModal.tsx` (shipped as
  `src/unnamed/part_005`): `handleSubmit` and `getNewStockLevel`.

The server-side components the specification describes (Sync Coordinator,
Transaction Ledger, Stock Record Store, Offline Replay Gateway) have no source
under the repository snapshot — only their frontend callers are present — so
they are modelled from the specification where a claim depends on them; those
definitions carry a doc comment starting with `Modelled from the spec:`.

JavaScript numbers are embedded as `ℚ` (the quantities are decimals), strings
as `String`, optional fields as `Option`.
-/

/-! ## Data model (`types/inventory.ts`) -/

/-- `Location` from `types/inventory.ts`: id, name, type
(`main_bar | rooftop | storage | kitchen`, embedded as `String`), isActive. -/
structure Location where
  id : String
  name : String
  type : String
  isActive : Bool
deriving DecidableEq

/-- `InventoryItem` from `types/inventory.ts`. -/
structure InventoryItem where
  id : String
  name : String
  category : String
  barcode : String
  currentStock : ℚ
  unitOfMeasure : String
  location : Location
  parLevel : ℚ
  reorderPoint : ℚ
  costPerUnit : ℚ
  supplierId : String
  expirationDate : Option String
  createdAt : String
  updatedAt : String
deriving DecidableEq

/-- `StockLevel` from `types/inventory.ts`: the client-side stock record for
one (itemId, locationId) pair.  `status` is the string union
`in_stock | low_stock | out_of_stock | overstock`. -/
structure StockLevel where
  itemId : String
  locationId : String
  currentStock : ℚ
  parLevel : ℚ
  reorderPoint : ℚ
  lastUpdated : String
  status : String
deriving DecidableEq

/-- `InventoryTransaction` from `types/inventory.ts`. -/
structure InventoryTransaction where
  id : String
  itemId : String
  locationId : String
  transactionType : String
  quantity : ℚ
  unitCost : Option ℚ
  userId : String
  userName : String
  posTransactionId : Option String
  timestamp : String
  notes : Option String
deriving DecidableEq

/-- The `adjustmentType` union `'add' | 'subtract' | 'set'` used by
`InventoryAdjustment` and the adjustment modal. -/
inductive AdjustmentType where
  | add
  | subtract
  | set
deriving DecidableEq

/-- `InventoryAdjustment` from `types/inventory.ts`: the payload posted to
`POST /inventory/adjustments`.  Note that it carries no idempotency key. -/
structure InventoryAdjustment where
  itemId : String
  locationId : String
  adjustmentType : AdjustmentType
  quantity : ℚ
  reason : String
  notes : Option String
deriving DecidableEq

/-- `InventoryFilter` from `types/inventory.ts`. -/
structure InventoryFilter where
  locationId : Option String
  category : Option String
  status : Option String
  searchTerm : Option String
deriving DecidableEq

/-- `InventoryState` from `types/inventory.ts`: the Redux slice state. -/
structure InventoryState where
  items : List InventoryItem
  stockLevels : List StockLevel
  locations : List Location
  transactions : List InventoryTransaction
  filters : InventoryFilter
  isLoading : Bool
  error : Option String
  isConnected : Bool
  lastUpdated : Option String
deriving DecidableEq

/-- The `data` payload of a `WebSocketMessage`
(`type: 'stock_update' | 'transaction' | 'alert'`; the `data: any` field is
cast to the payload matching `type` in `handleWebSocketMessage`). -/
inductive WSData where
  | stockUpdate (su : StockLevel)
  | txn (t : InventoryTransaction)
  | alert
deriving DecidableEq

/-! ## Reducers (`store/slices/inventorySlice.ts`) -/

/-- The predicate of the `findIndex` in `updateStockLevel` and in the
`stock_update` branch of `handleWebSocketMessage`:
`level.itemId === payload.itemId && level.locationId === payload.locationId`. -/
def sameKey (l payload : StockLevel) : Bool :=
  l.itemId == payload.itemId && l.locationId == payload.locationId

/-- The stock-level update shared verbatim by the `updateStockLevel` reducer
and the `stock_update` branch of `handleWebSocketMessage`: find the index of
the entry with the payload's (itemId, locationId); if found assign the payload
at that index, otherwise push it at the end. -/
def updateLevels (levels : List StockLevel) (payload : StockLevel) :
    List StockLevel :=
  match levels.findIdx? (fun l => sameKey l payload) with
  | some i => levels.set i payload
  | none => levels ++ [payload]

/-- Reducer `updateStockLevel` of `inventorySlice.ts`.  `now` stands for
`new Date().toISOString()`. -/
def updateStockLevel (s : InventoryState) (payload : StockLevel)
    (now : String) : InventoryState :=
  { s with stockLevels := updateLevels s.stockLevels payload,
           lastUpdated := some now }

/-- The in-memory cap applied after every unshift onto `state.transactions`:
`if (state.transactions.length > 100) state.transactions =
state.transactions.slice(0, 100)`. -/
def capTransactions (l : List InventoryTransaction) :
    List InventoryTransaction :=
  if l.length > 100 then l.take 100 else l

/-- Reducer `addTransaction` of `inventorySlice.ts`: unshift the payload, then
keep only the latest 100 transactions in memory. -/
def addTransaction (s : InventoryState) (t : InventoryTransaction) :
    InventoryState :=
  { s with transactions := capTransactions (t :: s.transactions) }

/-- Reducer `handleWebSocketMessage` of `inventorySlice.ts`.  The
`stock_update` branch repeats the body of `updateStockLevel`; the
`transaction` branch repeats the body of `addTransaction`; the `alert` branch
does nothing. -/
def handleWebSocketMessage (s : InventoryState) (d : WSData) (now : String) :
    InventoryState :=
  match d with
  | .stockUpdate su =>
      { s with stockLevels := updateLevels s.stockLevels su,
               lastUpdated := some now }
  | .txn t => { s with transactions := capTransactions (t :: s.transactions) }
  | .alert => s

/-- The `createInventoryAdjustment.pending` case of `inventorySlice.ts`. -/
def createInventoryAdjustmentPending (s : InventoryState) : InventoryState :=
  { s with isLoading := true, error := none }

/-- The `createInventoryAdjustment.fulfilled` case of `inventorySlice.ts`:
unshift the returned transaction and apply the 100-entry cap. -/
def createInventoryAdjustmentFulfilled (s : InventoryState)
    (t : InventoryTransaction) : InventoryState :=
  { s with isLoading := false,
           transactions := capTransactions (t :: s.transactions) }

/-- The `createInventoryAdjustment.rejected` case of `inventorySlice.ts`:
record the error message; nothing else is touched. -/
def createInventoryAdjustmentRejected (s : InventoryState) (msg : String) :
    InventoryState :=
  { s with isLoading := false, error := some msg }

/-! ## Adjustment modal (`InventoryAdjustmentModal.tsx`) -/

/-- Parse a block of leading decimal digits, returning the value, the number
of digits consumed, and the rest of the characters. -/
def parseDigits : List Char → ℕ × ℕ × List Char
  | [] => (0, 0, [])
  | c :: cs =>
    if c.isDigit then
      let (v, n, rest) := parseDigits cs
      ((c.toNat - 48) * 10 ^ n + v, n + 1, rest)
    else (0, 0, c :: cs)

/-- JavaScript's `parseFloat`, modelled on the decimal numeral strings a
`type="number"` input can hold (an optional leading `-`, digits, an optional
`.` and fraction digits); a string with no leading numeral yields `NaN` in
JavaScript and is outside the model (embedded as `0`, never reached by the
theorems below). -/
def jsParseFloat (s : String) : ℚ :=
  let cs := s.toList
  let (neg, cs1) :=
    match cs with
    | '-' :: rest => (true, rest)
    | _ => (false, cs)
  let (ip, _, rest1) := parseDigits cs1
  let frac : ℚ :=
    match rest1 with
    | '.' :: rest2 =>
      let (fv, fn, _) := parseDigits rest2
      (fv : ℚ) / (10 ^ fn : ℚ)
    | _ => 0
  let v : ℚ := (ip : ℚ) + frac
  if neg then -v else v

/-- The component state of `InventoryAdjustmentModal`: the controlled form
fields (`quantity` is the raw string value of the number input; empty when
cleared). -/
structure AdjustmentForm where
  adjustmentType : AdjustmentType
  quantity : String
  reason : String
  notes : String
  selectedLocationId : String
deriving DecidableEq

/-- `handleSubmit` of `InventoryAdjustmentModal.tsx`: the guard
`if (!selectedLocationId || !quantity || !reason) return;` (JavaScript string
falsiness, i.e. emptiness) and, when it passes, the `InventoryAdjustment`
dispatched to `createInventoryAdjustment` with
`quantity: parseFloat(quantity)` and `notes: notes || undefined`.  `none`
means the handler returned without dispatching. -/
def handleSubmit (itemId : String) (f : AdjustmentForm) :
    Option InventoryAdjustment :=
  if f.selectedLocationId == "" || f.quantity == "" || f.reason == "" then
    none
  else
    some { itemId := itemId,
           locationId := f.selectedLocationId,
           adjustmentType := f.adjustmentType,
           quantity := jsParseFloat f.quantity,
           reason := f.reason,
           notes := if f.notes == "" then none else some f.notes }

/-- The `switch (adjustmentType)` of `getNewStockLevel`:
`add → currentStock + amount`, `subtract → Math.max(0, currentStock - amount)`,
`set → amount`. -/
def applyAdjustment (currentStock : ℚ) (t : AdjustmentType) (amount : ℚ) :
    ℚ :=
  match t with
  | .add => currentStock + amount
  | .subtract => max 0 (currentStock - amount)
  | .set => amount

/-- `getNewStockLevel` of `InventoryAdjustmentModal.tsx`: with no selected
stock level it returns `selectedStockLevel?.currentStock || 0 = 0`; with an
empty quantity it returns the current stock (`currentStock || 0`, which is
the same value); otherwise it applies the adjustment switch to
`parseFloat(quantity)`. -/
def getNewStockLevel (selectedStockLevel : Option StockLevel)
    (quantity : String) (adjustmentType : AdjustmentType) : ℚ :=
  match selectedStockLevel with
  | none => 0
  | some sl =>
    if quantity == "" then sl.currentStock
    else applyAdjustment sl.currentStock adjustmentType (jsParseFloat quantity)

/-! ## Sequences of ADD/SUBTRACT deltas through the adjustment computation -/

/-- A single ADD or SUBTRACT delta (the two commutative kinds). -/
inductive Delta where
  | add (a : ℚ)
  | sub (a : ℚ)
deriving DecidableEq

/-- The signed amount of a delta: `+a` for ADD, `-a` for SUBTRACT. -/
def Delta.signedAmount : Delta → ℚ
  | .add a => a
  | .sub a => -a

/-- One delta applied through the adjustment computation of
`getNewStockLevel` (`applyAdjustment`). -/
def applyDelta (q : ℚ) : Delta → ℚ
  | .add a => applyAdjustment q .add a
  | .sub a => applyAdjustment q .subtract a

/-- A sequence of ADD/SUBTRACT deltas applied in order through the adjustment
computation, starting from quantity `q`. -/
def runDeltas (q : ℚ) (ds : List Delta) : ℚ :=
  ds.foldl applyDelta q

/-- `noClamp q ds = true` when no SUBTRACT in `ds` exceeds the running
quantity at its point of application, i.e. the `Math.max(0, ·)` clamp of
`getNewStockLevel` never fires. -/
def noClamp : ℚ → List Delta → Bool
  | _, [] => true
  | q, d :: ds =>
    (match d with
     | .sub a => decide (a ≤ q)
     | .add _ => true) && noClamp (applyDelta q d) ds

/-! ## Sample data and the slice's initial state -/

/-- The `initialState` of `inventorySlice.ts`. -/
def initialState : InventoryState :=
  { items := [], stockLevels := [], locations := [], transactions := [],
    filters := { locationId := none, category := none,
                 status := some "all", searchTerm := none },
    isLoading := false, error := none, isConnected := false,
    lastUpdated := none }

/-- A concrete stock level with quantity 2, used by the scenario of spec §8
("quantity 2; SUBTRACT 5 submitted"). -/
def lowStockLevel : StockLevel :=
  { itemId := "vodka", locationId := "main-bar", currentStock := 2,
    parLevel := 10, reorderPoint := 5, lastUpdated := "t0",
    status := "low_stock" }

/-- A concrete committed transaction. -/
def sampleTxn : InventoryTransaction :=
  { id := "t1", itemId := "vodka", locationId := "main-bar",
    transactionType := "adjustment", quantity := 5, unitCost := none,
    userId := "u1", userName := "Alex", posTransactionId := none,
    timestamp := "2024-01-01T00:00:00Z", notes := none }

/-! ## The 100-entry transaction cap -/

/-- `capTransactions` is `take 100`: when the unshifted list is within the
cap, `take 100` is the identity on it. -/
theorem capTransactions_eq_take (l : List InventoryTransaction) :
    capTransactions l = l.take 100 := by
  unfold capTransactions
  split
  · rfl
  · exact (List.take_of_length_le (by omega)).symm

/-- C10: after each of the three operations that insert a transaction
(`addTransaction`, a `transaction` WebSocket message, and
`createInventoryAdjustment.fulfilled`), the transaction list is exactly the
100-entry truncation of the unshifted list: the new transaction is at
position 0, the length never exceeds 100, and entries beyond the first 100
are discarded. -/
theorem insert_transaction_head_and_cap (s : InventoryState)
    (t : InventoryTransaction) (now : String) :
    (addTransaction s t).transactions = (t :: s.transactions).take 100 ∧
    (handleWebSocketMessage s (.txn t) now).transactions
      = (t :: s.transactions).take 100 ∧
    (createInventoryAdjustmentFulfilled s t).transactions
      = (t :: s.transactions).take 100 ∧
    (addTransaction s t).transactions.head? = some t ∧
    (handleWebSocketMessage s (.txn t) now).transactions.head? = some t ∧
    (createInventoryAdjustmentFulfilled s t).transactions.head? = some t ∧
    (addTransaction s t).transactions.length ≤ 100 ∧
    (handleWebSocketMessage s (.txn t) now).transactions.length ≤ 100 ∧
    (createInventoryAdjustmentFulfilled s t).transactions.length ≤ 100 := by
  have hcap : capTransactions (t :: s.transactions)
      = t :: s.transactions.take 99 := by
    rw [capTransactions_eq_take, List.take_succ_cons]
  refine ⟨?_, ?_, ?_, ?_, ?_, ?_, ?_, ?_, ?_⟩ <;>
    simp [addTransaction, handleWebSocketMessage,
      createInventoryAdjustmentFulfilled, hcap, List.take_succ_cons]

/-- C7: when a submitted adjustment is rejected, the round trip through the
`pending` and `rejected` cases of `createInventoryAdjustment` leaves the
stored state unchanged apart from the error message: in particular every
stock level keeps its quantity and no transaction is added. -/
theorem createInventoryAdjustment_rejected_state_unchanged
    (s : InventoryState) (msg : String) (h : s.isLoading = false) :
    createInventoryAdjustmentRejected (createInventoryAdjustmentPending s) msg
      = { s with error := some msg } := by
  cases s
  simp_all [createInventoryAdjustmentPending, createInventoryAdjustmentRejected]

/-- Witness for C7 at the slice's initial state. -/
theorem createInventoryAdjustment_rejected_state_unchanged_witness :
    initialState.isLoading = false ∧
    createInventoryAdjustmentRejected
        (createInventoryAdjustmentPending initialState) "InsufficientStockError"
      = { initialState with error := some "InsufficientStockError" } :=
  ⟨rfl, createInventoryAdjustment_rejected_state_unchanged initialState
    "InsufficientStockError" rfl⟩

/-! ## Stock-level uniqueness (C6) -/

/-- The (itemId, locationId) key of a stock level. -/
def levelKey (l : StockLevel) : String × String := (l.itemId, l.locationId)

/-- The keys of a stock-level collection, in order. -/
def levelKeys (levels : List StockLevel) : List (String × String) :=
  levels.map levelKey

/-- `sameKey` tests key equality. -/
theorem sameKey_iff (l payload : StockLevel) :
    sameKey l payload = true ↔ levelKey l = levelKey payload := by
  simp [sameKey, levelKey, Prod.ext_iff]

/-- First-match-replace-else-append form of `updateLevels`, convenient for
induction. -/
def upsertLevel (payload : StockLevel) : List StockLevel → List StockLevel
  | [] => [payload]
  | l :: ls =>
    if sameKey l payload then payload :: ls else l :: upsertLevel payload ls

/-- `updateLevels` (findIndex, then assign in place or push) computes
`upsertLevel`. -/
theorem updateLevels_eq_upsertLevel (levels : List StockLevel)
    (payload : StockLevel) :
    updateLevels levels payload = upsertLevel payload levels := by
  induction levels with
  | nil => rfl
  | cons l ls ih =>
    unfold updateLevels upsertLevel
    rw [List.findIdx?_cons]
    by_cases h : sameKey l payload
    · simp [h]
    · simp only [h, if_neg, Bool.false_eq_true, if_false, List.findIdx?_succ]
      unfold updateLevels at ih
      cases hf : ls.findIdx? (fun l => sameKey l payload) with
      | none => simp [hf] at ih; simp [ih]
      | some i => simp [hf] at ih; simp [ih]

/-- Every key of `upsertLevel payload ls` is the payload's key or a key of
`ls`. -/
theorem levelKeys_upsertLevel_subset (payload : StockLevel)
    (ls : List StockLevel) (x : String × String)
    (hx : x ∈ levelKeys (upsertLevel payload ls)) :
    x = levelKey payload ∨ x ∈ levelKeys ls := by
  induction ls with
  | nil => simp [upsertLevel, levelKeys] at hx; simp [hx]
  | cons l ls ih =>
    unfold upsertLevel at hx
    by_cases h : sameKey l payload
    · simp [h, levelKeys] at hx
      rcases hx with hx | hx
      · exact Or.inl (hx ▸ rfl)
      · exact Or.inr (by simp [levelKeys]; right; simpa [levelKeys] using hx)
    · simp [h, levelKeys] at hx
      rcases hx with hx | hx
      · exact Or.inr (by simp [levelKeys, hx])
      · rcases ih (by simpa [levelKeys] using hx) with h1 | h1
        · exact Or.inl h1
        · exact Or.inr (by simp [levelKeys] at h1 ⊢; exact Or.inr h1)

/-- `upsertLevel` preserves "at most one entry per (itemId, locationId)
pair". -/
theorem levelKeys_upsertLevel_nodup (payload : StockLevel)
    (ls : List StockLevel) (h : (levelKeys ls).Nodup) :
    (levelKeys (upsertLevel payload ls)).Nodup := by
  induction ls with
  | nil => simp [upsertLevel, levelKeys]
  | cons l ls ih =>
    simp only [levelKeys, List.map_cons, List.nodup_cons] at h
    unfold upsertLevel
    by_cases hk : sameKey l payload
    · have hkey : levelKey l = levelKey payload := (sameKey_iff l payload).1 hk
      simp only [hk, if_true, levelKeys, List.map_cons, List.nodup_cons]
      exact ⟨by rw [← hkey]; exact h.1, h.2⟩
    · simp only [hk, Bool.false_eq_true, if_false, levelKeys, List.map_cons,
        List.nodup_cons]
      refine ⟨?_, ih h.2⟩
      intro hmem
      rcases levelKeys_upsertLevel_subset payload ls _ hmem with h1 | h1
      · exact hk (by rw [sameKey_iff]; exact h1)
      · exact h.1 h1

/-- When the payload's key is absent, `upsertLevel` appends exactly the
payload at the end. -/
theorem upsertLevel_of_not_mem (payload : StockLevel) (ls : List StockLevel)
    (h : levelKey payload ∉ levelKeys ls) :
    upsertLevel payload ls = ls ++ [payload] := by
  induction ls with
  | nil => rfl
  | cons l ls ih =>
    simp only [levelKeys, List.map_cons, List.mem_cons] at h
    push_neg at h
    unfold upsertLevel
    have hk : sameKey l payload = false := by
      rw [Bool.eq_false_iff]
      intro hc
      exact h.1 ((sameKey_iff l payload).1 hc).symm
    simp [hk, ih (by simpa [levelKeys] using h.2)]

/-- When the payload's key is present, `upsertLevel` replaces the matching
entry in place: the length is unchanged. -/
theorem upsertLevel_length_of_mem (payload : StockLevel)
    (ls : List StockLevel) (h : levelKey payload ∈ levelKeys ls) :
    (upsertLevel payload ls).length = ls.length := by
  induction ls with
  | nil => simp [levelKeys] at h
  | cons l ls ih =>
    unfold upsertLevel
    by_cases hk : sameKey l payload
    · simp [hk]
    · have : levelKey payload ∈ levelKeys ls := by
        simp only [levelKeys, List.map_cons, List.mem_cons] at h
        rcases h with h | h
        · exact absurd ((sameKey_iff l payload).2 h.symm) (by simpa using hk)
        · simpa [levelKeys] using h
      simp [hk, ih this]

/-- C6: starting from a state whose stock-level collection has at most one
entry per (itemId, locationId) pair, both `updateStockLevel` and a
`stock_update` WebSocket message preserve that property; an update for an
existing pair replaces the matching entry in place (same length), and an
update for a new pair appends exactly one new entry at the end. -/
theorem updateStockLevel_preserves_unique_keys (s : InventoryState)
    (payload : StockLevel) (now : String)
    (h : (levelKeys s.stockLevels).Nodup) :
    (levelKeys (updateStockLevel s payload now).stockLevels).Nodup ∧
    (levelKeys
      (handleWebSocketMessage s (.stockUpdate payload) now).stockLevels).Nodup ∧
    (levelKey payload ∈ levelKeys s.stockLevels →
      (updateStockLevel s payload now).stockLevels.length
        = s.stockLevels.length) ∧
    (levelKey payload ∉ levelKeys s.stockLevels →
      (updateStockLevel s payload now).stockLevels
        = s.stockLevels ++ [payload]) ∧
    (handleWebSocketMessage s (.stockUpdate payload) now).stockLevels
      = (updateStockLevel s payload now).stockLevels := by
  refine ⟨?_, ?_, ?_, ?_, rfl⟩
  · simpa [updateStockLevel, updateLevels_eq_upsertLevel] using
      levelKeys_upsertLevel_nodup payload s.stockLevels h
  · simpa [handleWebSocketMessage, updateLevels_eq_upsertLevel] using
      levelKeys_upsertLevel_nodup payload s.stockLevels h
  · intro hmem
    simpa [updateStockLevel, updateLevels_eq_upsertLevel] using
      upsertLevel_length_of_mem payload s.stockLevels hmem
  · intro hmem
    simpa [updateStockLevel, updateLevels_eq_upsertLevel] using
      upsertLevel_of_not_mem payload s.stockLevels hmem

/-- Witness for C6 at a concrete one-entry stock-level collection. -/
theorem updateStockLevel_preserves_unique_keys_witness :
    (levelKeys
      ({ initialState with stockLevels := [lowStockLevel] }
        : InventoryState).stockLevels).Nodup ∧
    (levelKeys (updateStockLevel
      { initialState with stockLevels := [lowStockLevel] } lowStockLevel
      "t1").stockLevels).Nodup :=
  ⟨by simp [levelKeys],
   (updateStockLevel_preserves_unique_keys
      { initialState with stockLevels := [lowStockLevel] } lowStockLevel "t1"
      (by simp [levelKeys])).1⟩

/-! ## C1: SUBTRACT beyond current stock is clamped, not rejected -/

/-- C1 counterexample: in `getNewStockLevel`, a SUBTRACT of 5 against a
current stock of 2 is silently clamped to 0 — the quantity changes and no
error is produced, contradicting "rejects the operation with an error and
leaves the quantity unchanged". -/
theorem getNewStockLevel_clamps_counterexample :
    getNewStockLevel (some lowStockLevel) "5" AdjustmentType.subtract = 0 ∧
    getNewStockLevel (some lowStockLevel) "5" AdjustmentType.subtract
      ≠ lowStockLevel.currentStock := by
  have h : getNewStockLevel (some lowStockLevel) "5"
      AdjustmentType.subtract = 0 := by
    simp +decide [getNewStockLevel, applyAdjustment, jsParseFloat,
      parseDigits, lowStockLevel]
  refine ⟨h, ?_⟩
  rw [h]
  norm_num [lowStockLevel]

/-- C1 amended: for every SUBTRACT whose amount exceeds the current quantity,
`getNewStockLevel` silently clamps the result to zero (`Math.max(0, ·)`); the
computation is total and produces no error. -/
theorem getNewStockLevel_subtract_clamps_to_zero (sl : StockLevel)
    (q : String) (a : ℚ) (hq : q ≠ "") (hparse : jsParseFloat q = a)
    (hlt : sl.currentStock < a) :
    getNewStockLevel (some sl) q AdjustmentType.subtract = 0 := by
  simp only [getNewStockLevel, beq_iff_eq, if_neg hq, applyAdjustment, hparse]
  exact max_eq_left (by linarith)

/-- Witness for the amended C1 at current stock 2 and SUBTRACT 5. -/
theorem getNewStockLevel_subtract_clamps_to_zero_witness :
    ("5" ≠ "" ∧ jsParseFloat "5" = 5 ∧ lowStockLevel.currentStock < 5) ∧
    getNewStockLevel (some lowStockLevel) "5" AdjustmentType.subtract = 0 :=
  ⟨⟨by decide, by simp +decide [jsParseFloat, parseDigits],
    by norm_num [lowStockLevel]⟩,
   getNewStockLevel_subtract_clamps_to_zero lowStockLevel "5" 5 (by decide)
     (by simp +decide [jsParseFloat, parseDigits])
     (by norm_num [lowStockLevel])⟩

/-! ## C8: the submit guard does not reject non-positive amounts -/

/-- The form state reproducing the §8 scenario with quantity string "0": all
three guarded fields are non-empty. -/
def zeroQuantityForm : AdjustmentForm :=
  { adjustmentType := .subtract, quantity := "0", reason := "damaged",
    notes := "", selectedLocationId := "main-bar" }

/-- C8 counterexample: `handleSubmit` dispatches an adjustment with the
non-positive amount 0 — the guard `!selectedLocationId || !quantity ||
!reason` only rejects empty strings, so the quantity string "0" passes and an
adjustment with amount 0 is submitted to the API. -/
theorem handleSubmit_dispatches_zero_counterexample :
    handleSubmit "vodka" zeroQuantityForm
      = some { itemId := "vodka", locationId := "main-bar",
               adjustmentType := .subtract, quantity := 0,
               reason := "damaged", notes := none } ∧
    handleSubmit "vodka" zeroQuantityForm ≠ none := by
  constructor
  · simp +decide [handleSubmit, zeroQuantityForm, jsParseFloat, parseDigits]
  · simp +decide [handleSubmit, zeroQuantityForm]

/-- C8 amended: `handleSubmit` refuses to dispatch exactly when the location,
quantity, or reason field is the empty string; it performs no positivity
check on the amount, so non-positive amounts pass the guard (the `min="0"`
attribute is only an HTML constraint on the input element). -/
theorem handleSubmit_none_iff (itemId : String) (f : AdjustmentForm) :
    handleSubmit itemId f = none ↔
      (f.selectedLocationId = "" ∨ f.quantity = "" ∨ f.reason = "") := by
  unfold handleSubmit
  split
  · next h => simpa [or_assoc] using h
  · next h =>
      simp only [reduceCtorEq, false_iff]
      have h' := h
      simp [and_assoc] at h'
      tauto

/-! ## C2: sequences of ADD/SUBTRACT through the adjustment computation -/

/-- C2 counterexample: because of the `Math.max(0, ·)` clamp, the adjustment
computation is neither sum-preserving nor order-independent.  From quantity
0, `[SUBTRACT 5, ADD 5]` ends at 5 while its permutation `[ADD 5, SUBTRACT 5]`
ends at 0, and 5 differs from the initial quantity plus the signed sum
(which is 0). -/
theorem runDeltas_not_commutative_counterexample :
    runDeltas 0 [Delta.sub 5, Delta.add 5] = 5 ∧
    runDeltas 0 [Delta.add 5, Delta.sub 5] = 0 ∧
    List.Perm [Delta.sub 5, Delta.add 5] [Delta.add 5, Delta.sub 5] ∧
    runDeltas 0 [Delta.sub 5, Delta.add 5]
      ≠ 0 + ([Delta.sub 5, Delta.add 5].map Delta.signedAmount).sum := by
  refine ⟨?_, ?_, List.Perm.swap _ _ _, ?_⟩
  · simp +decide [runDeltas, applyDelta, applyAdjustment]
  · simp +decide [runDeltas, applyDelta, applyAdjustment]
  · have h5 : runDeltas 0 [Delta.sub 5, Delta.add 5] = 5 := by
      simp +decide [runDeltas, applyDelta, applyAdjustment]
    rw [h5]
    simp [Delta.signedAmount]

/-- When the clamp never fires, the adjustment computation is exactly
"add the signed amount". -/
theorem runDeltas_eq_add_sum (ds : List Delta) (q : ℚ)
    (h : noClamp q ds = true) :
    runDeltas q ds = q + (ds.map Delta.signedAmount).sum := by
  induction ds generalizing q with
  | nil => simp [runDeltas]
  | cons d rest ih =>
    cases d with
    | add a =>
      have h2 : noClamp (q + a) rest = true := by
        simpa [noClamp, applyDelta, applyAdjustment] using h
      have : runDeltas q (Delta.add a :: rest)
          = runDeltas (q + a) rest := by
        simp [runDeltas, applyDelta, applyAdjustment]
      rw [this, ih _ h2, List.map_cons, List.sum_cons, Delta.signedAmount]
      ring
    | sub a =>
      have hle : a ≤ q := by
        have := h
        simp only [noClamp, Bool.and_eq_true, decide_eq_true_eq] at this
        exact this.1
      have hmax : max 0 (q - a) = q - a := max_eq_right (by linarith)
      have h2 : noClamp (q - a) rest = true := by
        have := h
        simp only [noClamp, Bool.and_eq_true, applyDelta,
          applyAdjustment] at this
        rw [hmax] at this
        exact this.2
      have : runDeltas q (Delta.sub a :: rest)
          = runDeltas (q - a) rest := by
        simp [runDeltas, applyDelta, applyAdjustment, hmax]
      rw [this, ih _ h2, List.map_cons, List.sum_cons, Delta.signedAmount]
      ring

/-- C2 amended: for every initial quantity and every sequence of ADD/SUBTRACT
deltas in which no SUBTRACT exceeds the running quantity (so the
`Math.max(0, ·)` clamp never fires), the final quantity equals the initial
quantity plus the sum of the signed amounts; two such clamp-free permutations
of the same deltas end at the same quantity.  (Without the no-clamp
condition the property fails — see the counterexample.) -/
theorem runDeltas_commutative_of_noClamp (q : ℚ) (ds ds' : List Delta)
    (h : noClamp q ds = true) (h' : noClamp q ds' = true)
    (hp : List.Perm ds ds') :
    runDeltas q ds = q + (ds.map Delta.signedAmount).sum ∧
    runDeltas q ds' = runDeltas q ds := by
  refine ⟨runDeltas_eq_add_sum ds q h, ?_⟩
  rw [runDeltas_eq_add_sum ds q h, runDeltas_eq_add_sum ds' q h',
    List.Perm.sum_eq (List.Perm.map Delta.signedAmount hp)]

/-- Witness for the amended C2: quantity 10, ADD 5 then SUBTRACT 3, and the
swapped order. -/
theorem runDeltas_commutative_of_noClamp_witness :
    (noClamp 10 [Delta.add 5, Delta.sub 3] = true ∧
     noClamp 10 [Delta.sub 3, Delta.add 5] = true ∧
     List.Perm [Delta.add 5, Delta.sub 3] [Delta.sub 3, Delta.add 5]) ∧
    (runDeltas 10 [Delta.add 5, Delta.sub 3]
        = 10 + ([Delta.add 5, Delta.sub 3].map Delta.signedAmount).sum ∧
     runDeltas 10 [Delta.sub 3, Delta.add 5]
        = runDeltas 10 [Delta.add 5, Delta.sub 3]) :=
  ⟨⟨by simp +decide [noClamp, applyDelta, applyAdjustment]; norm_num,
    by simp +decide [noClamp, applyDelta, applyAdjustment],
    List.Perm.swap _ _ _⟩,
   runDeltas_commutative_of_noClamp 10 [Delta.add 5, Delta.sub 3]
     [Delta.sub 3, Delta.add 5]
     (by simp +decide [noClamp, applyDelta, applyAdjustment]; norm_num)
     (by simp +decide [noClamp, applyDelta, applyAdjustment])
     (List.Perm.swap _ _ _)⟩

/-! ## C3: no idempotency handling in the client -/

/-- C3 counterexample: `InventoryAdjustment` carries no idempotency key and
`addTransaction` performs no deduplication, so resubmitting the very same
transaction records it a second time: from the initial state, two
`addTransaction` calls with the same payload leave the list `[t, t]`, with
the entry counted twice. -/
theorem addTransaction_duplicates_counterexample :
    (addTransaction (addTransaction initialState sampleTxn)
      sampleTxn).transactions = [sampleTxn, sampleTxn] ∧
    ((addTransaction (addTransaction initialState sampleTxn)
      sampleTxn).transactions).count sampleTxn = 2 := by
  have h1 : (addTransaction initialState sampleTxn).transactions
      = [sampleTxn] := by
    simp [addTransaction, capTransactions, initialState]
  have h2 : (addTransaction (addTransaction initialState sampleTxn)
      sampleTxn).transactions = [sampleTxn, sampleTxn] := by
    simp [addTransaction, capTransactions, initialState]
  exact ⟨h2, by rw [h2]; simp⟩

/-- C3 amended: the client performs no idempotency detection.  Whenever a
transaction is already present and the list is below the 100-entry cap,
resubmitting it through `addTransaction` adds a second entry: the payload is
counted at least twice afterwards. -/
theorem addTransaction_resubmission_double_entry (s : InventoryState)
    (t : InventoryTransaction) (hmem : t ∈ s.transactions)
    (hlen : s.transactions.length < 100) :
    2 ≤ (addTransaction s t).transactions.count t := by
  have hcap : capTransactions (t :: s.transactions) = t :: s.transactions := by
    unfold capTransactions
    rw [if_neg]
    simp only [List.length_cons]
    omega
  have hcount : 1 ≤ s.transactions.count t := List.one_le_count_iff.2 hmem
  simp only [addTransaction, hcap, List.count_cons_self]
  omega

/-- Witness for the amended C3: one prior copy of the transaction. -/
theorem addTransaction_resubmission_double_entry_witness :
    (sampleTxn ∈ (addTransaction initialState sampleTxn).transactions ∧
     (addTransaction initialState sampleTxn).transactions.length < 100) ∧
    2 ≤ (addTransaction (addTransaction initialState sampleTxn)
          sampleTxn).transactions.count sampleTxn :=
  ⟨⟨by simp [addTransaction, capTransactions, initialState],
    by simp [addTransaction, capTransactions, initialState]⟩,
   addTransaction_resubmission_double_entry _ sampleTxn
     (by simp [addTransaction, capTransactions, initialState])
     (by simp [addTransaction, capTransactions, initialState])⟩

/-! ## C9: the 100-entry cap evicts old transactions -/

/-- The n-th distinct committed transaction (distinct id and quantity). -/
def mkTxn (n : ℕ) : InventoryTransaction :=
  { id := toString n, itemId := "vodka", locationId := "main-bar",
    transactionType := "adjustment", quantity := (n : ℚ), unitCost := none,
    userId := "u1", userName := "Alex", posTransactionId := none,
    timestamp := "t", notes := none }

/-- A state whose transaction list already holds 100 entries. -/
def fullState : InventoryState :=
  { initialState with transactions := (List.range 100).map mkTxn }

/-- C9 counterexample: with 100 transactions in the list, inserting one more
through `addTransaction` silently deletes the oldest entry: `mkTxn 99` is
present before the call and gone afterwards, so committed transactions are
not retained unconditionally. -/
theorem addTransaction_evicts_counterexample :
    mkTxn 99 ∈ fullState.transactions ∧
    mkTxn 99 ∉ (addTransaction fullState (mkTxn 100)).transactions := by
  constructor
  · exact List.mem_map.2 ⟨99, by simp, rfl⟩
  · intro hmem
    have hlen : ((List.range 100).map mkTxn).length = 100 := by simp
    have hcap : (addTransaction fullState (mkTxn 100)).transactions
        = mkTxn 100 :: ((List.range 100).map mkTxn).take 99 := by
      simp only [addTransaction, fullState, capTransactions_eq_take,
        List.take_succ_cons]
    have htake : ((List.range 100).map mkTxn).take 99
        = (List.range 99).map mkTxn := by
      rw [← List.map_take, List.range_succ,
        List.take_left' (by simp : (List.range 99).length = 99)]
    rw [hcap, htake] at hmem
    rcases List.mem_cons.1 hmem with heq | hmem'
    · have : ((99 : ℕ) : ℚ) = ((100 : ℕ) : ℚ) :=
        congrArg InventoryTransaction.quantity heq
      have : (99 : ℕ) = 100 := Nat.cast_injective this
      omega
    · rcases List.mem_map.1 hmem' with ⟨k, hk, heq⟩
      have : ((k : ℕ) : ℚ) = ((99 : ℕ) : ℚ) :=
        congrArg InventoryTransaction.quantity heq
      have hk99 : k = 99 := Nat.cast_injective this
      rw [List.mem_range] at hk
      omega

/-- C9 amended: an insertion never mutates surviving entries — the new list
is exactly the 100-entry truncation of the unshifted old list — and every
transaction among the first 99 entries survives both `addTransaction` and a
`transaction` WebSocket message; only entries beyond the cap are discarded. -/
theorem addTransaction_preserves_recent (s : InventoryState)
    (t tx : InventoryTransaction) (now : String)
    (hmem : tx ∈ s.transactions.take 99) :
    (addTransaction s t).transactions = (t :: s.transactions).take 100 ∧
    tx ∈ (addTransaction s t).transactions ∧
    tx ∈ (handleWebSocketMessage s (.txn t) now).transactions := by
  have hcap : capTransactions (t :: s.transactions)
      = t :: s.transactions.take 99 := by
    rw [capTransactions_eq_take, List.take_succ_cons]
  refine ⟨?_, ?_, ?_⟩
  · simp [addTransaction, capTransactions_eq_take]
  · simp only [addTransaction, hcap]
    exact List.mem_cons_of_mem t hmem
  · simp only [handleWebSocketMessage, hcap]
    exact List.mem_cons_of_mem t hmem

/-- Witness for the amended C9: a one-entry list. -/
theorem addTransaction_preserves_recent_witness :
    sampleTxn ∈ (addTransaction initialState sampleTxn).transactions.take 99 ∧
    sampleTxn ∈ (addTransaction (addTransaction initialState sampleTxn)
      (mkTxn 0)).transactions :=
  ⟨by simp [addTransaction, capTransactions, initialState],
   (addTransaction_preserves_recent _ (mkTxn 0) sampleTxn "t1"
     (by simp [addTransaction, capTransactions, initialState])).2.1⟩

/-! ## Spec-modelled server core (Sync Coordinator, Ledger, Record Store)

The repository snapshot contains no backend source for the Stock Record
Store, Transaction Ledger, Sync Coordinator, or Offline Replay Gateway —
only their frontend callers (`inventoryAPI`, the mobile placeholder app) —
so claims C4 and C5 are settled against a model taken from the
specification's own algorithm (spec §3, §4.1–§4.5, §6, §7). -/

/-- A (itemId, locationId) key. -/
abbrev StockKey := String × String

/-- Modelled from the spec: a proposed adjustment submitted to the Sync
Coordinator (spec §6 "Adjustment submission": itemId, locationId, kind,
amount, idempotencyKey; the identity/timestamp fields do not affect the
algorithm). -/
structure Proposal where
  itemId : String
  locationId : String
  kind : AdjustmentType
  amount : ℚ
  idempotencyKey : String
deriving DecidableEq

/-- The key of a proposal. -/
def Proposal.key (p : Proposal) : StockKey := (p.itemId, p.locationId)

/-- Modelled from the spec: the authoritative stock record for one key
(spec §3 StockRecord: currentQuantity and monotonic version). -/
structure SRecord where
  quantity : ℚ
  version : ℕ
deriving DecidableEq

/-- Modelled from the spec: a committed ledger entry (spec §3 Transaction:
idempotencyKey, key, resultingQuantity, resultingVersion). -/
structure LedgerEntry where
  idempotencyKey : String
  key : StockKey
  resultingQuantity : ℚ
  resultingVersion : ℕ
deriving DecidableEq

/-- Modelled from the spec: the per-proposal outcome
(spec §6: committed | duplicate | rejected). -/
inductive Outcome where
  | committed (resultingQuantity : ℚ) (resultingVersion : ℕ)
  | duplicate (resultingQuantity : ℚ) (resultingVersion : ℕ)
  | rejected
deriving DecidableEq

/-- Modelled from the spec: the server state — lazily created stock records
(spec §3: "created lazily on first transaction") and the append-only ledger,
newest entry first. -/
structure Server where
  records : StockKey → Option SRecord
  ledger : List LedgerEntry

/-- The empty server: no records, empty ledger. -/
def Server.initial : Server := ⟨fun _ => none, []⟩

/-- Modelled from the spec: `findByIdempotencyKey` of the Transaction Ledger
(spec §4.2). -/
def findByIdempotencyKey (ledger : List LedgerEntry) (k : String) :
    Option LedgerEntry :=
  ledger.find? (fun e => e.idempotencyKey == k)

/-- Modelled from the spec: step 4 of the coordinator algorithm (spec §4.3):
the new quantity per kind, with no clamping (rejection is step 5). -/
def computeQuantity (current : ℚ) (kind : AdjustmentType) (amount : ℚ) : ℚ :=
  match kind with
  | .add => current + amount
  | .subtract => current - amount
  | .set => amount

/-- Modelled from the spec: validation (spec §7 `ValidationError`:
non-positive amount rejected for the delta kinds; a SET amount must only be
non-negative, since spec §8 commits "SET 0"). -/
def validAmount (kind : AdjustmentType) (amount : ℚ) : Bool :=
  match kind with
  | .set => decide (0 ≤ amount)
  | _ => decide (0 < amount)

/-- Modelled from the spec: one pass of the Sync Coordinator for a single
proposal (spec §4.3 steps 1–6): deduplicate by idempotencyKey; validate;
read the record (lazily ⟨0, 0⟩); compute the new quantity; reject with
`InsufficientStockError` when it is negative; otherwise commit — append a
ledger entry and bump the record's version by one. -/
def coordStep (sv : Server) (p : Proposal) : Server × Outcome :=
  match findByIdempotencyKey sv.ledger p.idempotencyKey with
  | some e => (sv, .duplicate e.resultingQuantity e.resultingVersion)
  | none =>
    if validAmount p.kind p.amount then
      let r := (sv.records p.key).getD ⟨0, 0⟩
      let q := computeQuantity r.quantity p.kind p.amount
      if q < 0 then (sv, .rejected)
      else
        ({ records := fun k =>
             if k = p.key then some ⟨q, r.version + 1⟩ else sv.records k,
           ledger := ⟨p.idempotencyKey, p.key, q, r.version + 1⟩ :: sv.ledger },
         .committed q (r.version + 1))
    else (sv, .rejected)

/-- A list of proposals processed in order by the Sync Coordinator. -/
def runProposals (sv : Server) (ps : List Proposal) : Server :=
  ps.foldl (fun s p => (coordStep s p).1) sv

/-- The resulting versions of the committed ledger entries for a key, newest
first. -/
def versionsFor (sv : Server) (k : StockKey) : List ℕ :=
  (sv.ledger.filter (fun e => e.key == k)).map LedgerEntry.resultingVersion

/-- The current version of the record for a key (0 before creation). -/
def recVersion (sv : Server) (k : StockKey) : ℕ :=
  ((sv.records k).getD ⟨0, 0⟩).version

/-- The list `[n, n-1, …, 1]`. -/
def countdown : ℕ → List ℕ
  | 0 => []
  | n + 1 => (n + 1) :: countdown n

theorem countdown_length (n : ℕ) : (countdown n).length = n := by
  induction n with
  | zero => rfl
  | succ n ih => simp [countdown, ih]

theorem countdown_reverse (n : ℕ) :
    (countdown n).reverse = List.range' 1 n := by
  induction n with
  | zero => rfl
  | succ n ih =>
    rw [countdown, List.reverse_cons, ih, List.range'_1_concat,
      Nat.add_comm 1 n]

/-- The version invariant: for every key, the committed versions in the
ledger (newest first) are exactly `[v, v-1, …, 1]` where `v` is the record's
current version. -/
theorem versionInv_step (sv : Server) (p : Proposal)
    (h : ∀ k, versionsFor sv k = countdown (recVersion sv k)) :
    ∀ k, versionsFor (coordStep sv p).1 k
      = countdown (recVersion (coordStep sv p).1 k) := by
  intro k
  unfold coordStep
  cases hf : findByIdempotencyKey sv.ledger p.idempotencyKey with
  | some e => exact h k
  | none =>
    by_cases hv : validAmount p.kind p.amount = true
    · simp only [hv, if_true]
      by_cases hneg : computeQuantity ((sv.records p.key).getD ⟨0, 0⟩).quantity
          p.kind p.amount < 0
      · simp only [hneg, if_true]
        exact h k
      · simp only [hneg, if_false]
        by_cases hk : k = p.key
        · subst hk
          simp only [versionsFor, recVersion, List.filter_cons,
            beq_self_eq_true, if_pos rfl, List.map_cons, if_true,
            Option.getD_some]
          rw [show ∀ n, countdown (n + 1) = (n + 1) :: countdown n from
            fun _ => rfl]
          have := h p.key
          simp only [versionsFor, recVersion] at this
          rw [this]
        · have hbeq : ((⟨p.idempotencyKey, p.key,
              computeQuantity ((sv.records p.key).getD ⟨0, 0⟩).quantity
                p.kind p.amount,
              ((sv.records p.key).getD ⟨0, 0⟩).version + 1⟩ :
                LedgerEntry).key == k) = false := by
            simp only [beq_eq_false_iff_ne, ne_eq]
            intro hc
            exact hk (hc.symm)
          simp only [versionsFor, recVersion, List.filter_cons, hbeq,
            Bool.false_eq_true, if_false, if_neg hk]
          exact h k
    · simp only [hv, Bool.false_eq_true, if_false]
      exact h k

/-- The version invariant holds after any run from the empty server. -/
theorem versionInv_run (ps : List Proposal) (sv : Server)
    (h : ∀ k, versionsFor sv k = countdown (recVersion sv k)) :
    ∀ k, versionsFor (runProposals sv ps) k
      = countdown (recVersion (runProposals sv ps) k) := by
  induction ps generalizing sv with
  | nil => exact h
  | cons p rest ih =>
    have hstep := versionInv_step sv p h
    simpa [runProposals] using ih ((coordStep sv p).1) hstep

/-- C5 (spec-modelled): for every sequence of proposals processed from the
empty server and for every key, the versions of the committed transactions
for that key, taken in commit order, are exactly `1, 2, …, m` — a strictly
increasing, gap-free sequence in which every accepted mutation increments
the version by exactly one. -/
theorem versions_strictly_increasing_gap_free (ps : List Proposal)
    (k : StockKey) :
    (versionsFor (runProposals Server.initial ps) k).reverse
      = List.range' 1
          (versionsFor (runProposals Server.initial ps) k).length := by
  have h0 : ∀ k, versionsFor Server.initial k
      = countdown (recVersion Server.initial k) := fun _ => rfl
  have h := versionInv_run ps Server.initial h0 k
  rw [h, countdown_reverse, countdown_length]

/-! ## C4: offline replay vs. online submission -/

/-- Modelled from the spec: the client's cached quantity per key (spec §9:
"clients hold a cache, never the source of truth"). -/
structure ClientState where
  cache : StockKey → ℚ

/-- The server's current quantity for a key (0 before lazy creation). -/
def serverQty (sv : Server) (k : StockKey) : ℚ :=
  ((sv.records k).getD ⟨0, 0⟩).quantity

/-- Modelled from the spec: one online submission (spec §6): the client
submits the proposal and, on a committed outcome, adopts the returned
`resultingQuantity` for that key; rejections and duplicates leave the cache
alone. -/
def onlineSubmit (sc : Server × ClientState) (p : Proposal) :
    Server × ClientState :=
  match (coordStep sc.1 p).2 with
  | .committed q _ =>
      ((coordStep sc.1 p).1,
       ⟨fun k => if k = p.key then q else sc.2.cache k⟩)
  | _ => ((coordStep sc.1 p).1, sc.2)

/-- A connected client submitting the proposals online one at a time, in
order. -/
def onlineRun (sv : Server) (c : ClientState) (ps : List Proposal) :
    Server × ClientState :=
  ps.foldl onlineSubmit (sv, c)

/-- Modelled from the spec: the Offline Replay Gateway (spec §4.5) replays
the buffered batch through the same Sync Coordinator in the client's
original order. -/
def replay (sv : Server) (batch : List Proposal) : Server :=
  runProposals sv batch

/-- Modelled from the spec: reconciliation with the ReplayResult (spec §4.5):
the client adopts the server's final stock record for every key affected by
the batch, and keeps its cache for untouched keys. -/
def reconcile (c : ClientState) (sv : Server) (batch : List Proposal) :
    ClientState :=
  ⟨fun k =>
    if (batch.map Proposal.key).contains k then serverQty sv k
    else c.cache k⟩

/-- After one coordinator pass, the quantity of the proposal's key is the
committed resulting quantity, other keys are untouched, and non-committed
outcomes change nothing. -/
theorem serverQty_coordStep (sv : Server) (p : Proposal) (k : StockKey) :
    serverQty (coordStep sv p).1 k
      = match (coordStep sv p).2 with
        | .committed q _ => if k = p.key then q else serverQty sv k
        | _ => serverQty sv k := by
  unfold coordStep
  cases hf : findByIdempotencyKey sv.ledger p.idempotencyKey with
  | some e => rfl
  | none =>
    by_cases hv : validAmount p.kind p.amount = true
    · simp only [hv, if_true]
      by_cases hneg : computeQuantity ((sv.records p.key).getD ⟨0, 0⟩).quantity
          p.kind p.amount < 0
      · simp only [hneg, if_true]
      · simp only [hneg, if_false]
        by_cases hk : k = p.key
        · subst hk
          simp [serverQty]
        · simp [serverQty, hk]
    · simp only [hv, Bool.false_eq_true, if_false]

/-- The server component of an online run is the plain coordinator fold. -/
theorem onlineRun_fst (ps : List Proposal) (sv : Server) (c : ClientState) :
    (onlineRun sv c ps).1 = runProposals sv ps := by
  induction ps generalizing sv c with
  | nil => rfl
  | cons p rest ih =>
    have hfst : (onlineSubmit (sv, c) p).1 = (coordStep sv p).1 := by
      unfold onlineSubmit
      cases (coordStep sv p).2 <;> rfl
    simp only [onlineRun, List.foldl_cons, runProposals]
    rw [show (onlineSubmit (sv, c) p) = ((onlineSubmit (sv, c) p).1,
      (onlineSubmit (sv, c) p).2) from rfl, hfst]
    exact ih _ _

/-- An online client that starts in sync with the server stays in sync: its
cache always equals the server's quantities. -/
theorem onlineRun_cache_sync (ps : List Proposal) (sv : Server)
    (c : ClientState) (h : ∀ k, c.cache k = serverQty sv k) :
    ∀ k, (onlineRun sv c ps).2.cache k
      = serverQty (onlineRun sv c ps).1 k := by
  induction ps generalizing sv c with
  | nil => exact h
  | cons p rest ih =>
    have hstep : ∀ k, (onlineSubmit (sv, c) p).2.cache k
        = serverQty (onlineSubmit (sv, c) p).1 k := by
      intro k
      have hq := serverQty_coordStep sv p k
      unfold onlineSubmit
      cases ho : (coordStep sv p).2 with
      | committed q v =>
          rw [ho] at hq
          simp only [hq]
          by_cases hk : k = p.key
          · simp [hk]
          · simp [hk, h k]
      | duplicate q v =>
          rw [ho] at hq
          simpa [hq] using h k
      | rejected =>
          rw [ho] at hq
          simpa [hq] using h k
    have := ih (onlineSubmit (sv, c) p).1 (onlineSubmit (sv, c) p).2 hstep
    simpa [onlineRun, List.foldl_cons] using this

/-- Keys not touched by a run keep their server quantity. -/
theorem serverQty_untouched (ps : List Proposal) (sv : Server) (k : StockKey)
    (h : ¬ (ps.map Proposal.key).contains k) :
    serverQty (runProposals sv ps) k = serverQty sv k := by
  induction ps generalizing sv with
  | nil => rfl
  | cons p rest ih =>
    simp only [List.map_cons, List.contains_cons, Bool.or_eq_true,
      not_or] at h
    have hk : k ≠ p.key := by
      intro hc
      exact h.1 (by simp [hc])
    have hstep : serverQty (coordStep sv p).1 k = serverQty sv k := by
      have hq := serverQty_coordStep sv p k
      cases ho : (coordStep sv p).2 with
      | committed q v => rw [ho] at hq; simpa [hk] using hq
      | duplicate q v => rw [ho] at hq; simpa using hq
      | rejected => rw [ho] at hq; simpa using hq
    simp only [runProposals, List.foldl_cons]
    rw [show (rest.foldl (fun s p => (coordStep s p).1) (coordStep sv p).1)
      = runProposals (coordStep sv p).1 rest from rfl,
      ih _ (by simpa using h.2), hstep]

/-- C4 (spec-modelled): a disconnected client that buffers a batch and later
replays it through the Offline Replay Gateway ends up, after reconciling
with the ReplayResult, with exactly the cache of a client that stayed online
and submitted the same proposals one at a time in the same order; the server
also ends in the same state on both paths. -/
theorem offline_replay_equiv_online (sv : Server) (c : ClientState)
    (batch : List Proposal) (h : ∀ k, c.cache k = serverQty sv k) :
    (reconcile c (replay sv batch) batch).cache
      = (onlineRun sv c batch).2.cache ∧
    replay sv batch = (onlineRun sv c batch).1 := by
  constructor
  · funext k
    have honline := onlineRun_cache_sync batch sv c h k
    rw [honline, onlineRun_fst]
    show (if (batch.map Proposal.key).contains k
        then serverQty (replay sv batch) k else c.cache k)
      = serverQty (runProposals sv batch) k
    by_cases hmem : (batch.map Proposal.key).contains k = true
    · rw [if_pos hmem]
      rfl
    · rw [if_neg hmem, serverQty_untouched batch sv k hmem]
      exact h k
  · rw [onlineRun_fst]
    rfl

/-- A concrete two-entry batch: ADD 5 then SUBTRACT 3 on the same key. -/
def demoBatch : List Proposal :=
  [⟨"vodka", "main-bar", .add, 5, "a1"⟩,
   ⟨"vodka", "main-bar", .subtract, 3, "b1"⟩]

/-- Witness for C4 at the empty server, a zero cache, and the demo batch. -/
theorem offline_replay_equiv_online_witness :
    (∀ k, (⟨fun _ => 0⟩ : ClientState).cache k = serverQty Server.initial k) ∧
    (reconcile ⟨fun _ => 0⟩ (replay Server.initial demoBatch)
        demoBatch).cache
      = (onlineRun Server.initial ⟨fun _ => 0⟩ demoBatch).2.cache :=
  ⟨fun _ => rfl,
   (offline_replay_equiv_online Server.initial ⟨fun _ => 0⟩ demoBatch
     (fun _ => rfl)).1⟩
